import Mathlib

/-!
Verification of the evaluation/aggregation logic of the eft repository
(src/eft/apps/eval_export.py and src/eft/apps/evalfrompkl.py).

The two scripts share the same metric-aggregation core inside
`run_evaluation`: per-sample MPJPE and reconstruction errors are appended
into per-sequence Python dicts (`quant_mpjpe`, `quant_recon_err`) keyed by
`os.path.basename(os.path.dirname(imgname))`, and the final report takes
the mean over the concatenation of all buckets, scaled by 1000.

This file embeds that core shallowly: buckets are insertion-ordered
association lists (Python 3.7 dicts preserve insertion order), per-sample
scalar errors are rationals at the aggregation layer, and the metric
computations themselves (torch expressions over joints) are embedded over
the reals in a second layer.
-/

namespace EFT

/-! ### Path handling

Models `os.path.dirname` / `os.path.basename` for forward-slash paths as
used in `run_evaluation` (eval_export.py lines 162-163 and 246-247,
evalfrompkl.py lines 310, 425-426). -/

/-- Split a character list on the separator character, mirroring how
`os.path` treats '/' on posix: every '/' starts a new segment. -/
def splitSlash : List Char → List (List Char)
  | [] => [[]]
  | c :: cs =>
    if c = '/' then [] :: splitSlash cs
    else
      match splitSlash cs with
      | [] => [[c]]
      | g :: gs => (c :: g) :: gs

/-- Join segments back with '/'. -/
def joinSlash : List (List Char) → List Char
  | [] => []
  | [g] => g
  | g :: gs => g ++ '/' :: joinSlash gs

/-- Model of `os.path.dirname`: everything before the last '/'. -/
def dirname (p : String) : String :=
  String.mk (joinSlash (splitSlash p.data).dropLast)

/-- Model of `os.path.basename`: everything after the last '/'. -/
def basename (p : String) : String :=
  String.mk ((splitSlash p.data).getLastD [])

/-- Sequence identifier of a sample, taken from the source:
`seqName = os.path.basename(os.path.dirname(p))` (eval_export.py line 247,
evalfrompkl.py line 426). -/
def seqNameOf (p : String) : String :=
  basename (dirname p)

/-! ### Sequence buckets

`quant_mpjpe` and `quant_recon_err` are Python dicts mapping a sequence
name to the list of per-sample errors appended so far.  We embed a dict
as an insertion-ordered association list: a new key is appended at the
end (Python dicts iterate in insertion order). -/

/-- Insertion-ordered map from sequence name to accumulated error list. -/
abbrev Buckets (α : Type) := List (String × List α)

/-- One recording step of the source loop (eval_export.py lines 249-253):
the bucket is created empty on first encounter of the key (appended at
the end, preserving first-appearance order) and the value is appended. -/
def record {α : Type} : Buckets α → String → α → Buckets α
  | [], k, v => [(k, [v])]
  | (k', vs) :: rest, k, v =>
    if k' = k then (k', vs ++ [v]) :: rest
    else (k', vs) :: record rest k v

/-- Contents of the bucket for key `k` (empty when absent). -/
def bucketGet {α : Type} (bs : Buckets α) (k : String) : List α :=
  match bs with
  | [] => []
  | (k', vs) :: rest => if k' = k then vs else bucketGet rest k

/-- Keys of the buckets in insertion order (Python dict iteration order). -/
def keys {α : Type} (bs : Buckets α) : List String :=
  bs.map Prod.fst

/-- Concatenation of all buckets, in key order: models
`np.hstack([quant_mpjpe[k] for k in quant_mpjpe])`
(eval_export.py lines 259, 404). -/
def allValues {α : Type} (bs : Buckets α) : List α :=
  (bs.map Prod.snd).flatten

/-- Mean of a list of rationals, `np.mean` style: sum divided by length. -/
def listMean (l : List ℚ) : ℚ :=
  l.sum / (l.length : ℚ)

/-- Overall mean over the concatenation of all buckets:
`np.hstack(list_mpjpe).mean()` (eval_export.py line 411). -/
def overallMean (bs : Buckets ℚ) : ℚ :=
  listMean (allValues bs)

/-! ### Samples and the recording loop -/

/-- One evaluation sample: its source image path and the two per-sample
scalar errors computed for it (`error[ii]` and `r_error[ii]`). -/
structure Sample where
  imgname : String
  error : ℚ
  r_error : ℚ
deriving DecidableEq

/-- The `quant_mpjpe` dict produced by the per-sample recording loop
(eval_export.py lines 246-253, evalfrompkl.py lines 425-432). -/
def quantMpjpe (ss : List Sample) : Buckets ℚ :=
  ss.foldl (fun b s => record b (seqNameOf s.imgname) s.error) []

/-- The `quant_recon_err` dict produced by the same loop
(eval_export.py line 254, evalfrompkl.py line 433). -/
def quantReconErr (ss : List Sample) : Buckets ℚ :=
  ss.foldl (fun b s => record b (seqNameOf s.imgname) s.r_error) []

/-- First-appearance order of the elements of a list of strings. -/
def firstAppearance (l : List String) : List String :=
  l.foldl (fun acc k => if k ∈ acc then acc else acc ++ [k]) []

/-! ### Final report (eval_export.py lines 404-424, evalfrompkl.py 526-547)

The source renders one text line per metric into `output_str`: the metric
label, then `Avg {overall mean * 1000} mm`, then one per-sequence mean
(times 1000) per sequence, iterating the dict in insertion order.  We
model the numeric content of one such line structurally. -/

/-- One metric line of the final report: label, overall average in mm,
and the per-sequence means in mm in dict iteration order. -/
structure MetricLine where
  label : String
  avg_mm : ℚ
  perSeq_mm : List (String × ℚ)
deriving DecidableEq

/-- Renders one metric line from a bucket map, mirroring
`output_str += "Avg {:.02f} mm; ".format(np.hstack(list_mpjpe).mean()*1000)`
followed by `'{:.02f}; '.format(1000 * np.hstack(quant_mpjpe[seq]).mean())`
for each `seq` of the dict, in order. -/
def metricLine (label : String) (bs : Buckets ℚ) : MetricLine :=
  ⟨label, overallMean bs * 1000, bs.map (fun b => (b.1, 1000 * listMean b.2))⟩

/-- The final text block: a SeqNames header row plus one line per metric
(MPJPE then Recon Error). -/
structure FinalReport where
  seqNames : List String
  metricLines : List MetricLine
deriving DecidableEq

/-- Builds the final report from the two bucket dicts, as at
eval_export.py lines 407-420. -/
def finalReport (mb rb : Buckets ℚ) : FinalReport :=
  ⟨keys mb, [metricLine "MPJPE" mb, metricLine "Recon Error" rb]⟩

/-! ### Return value of run_evaluation (eval_export.py lines 145-153, 399-439) -/

/-- The value `run_evaluation` returns. -/
inductive EvalReturn where
  | poseMetrics (mpjpe_mm : ℚ) (recon_mm : ℚ)
  | minusOne
deriving DecidableEq

/-- Line 149: pose evaluation is enabled exactly for these dataset names
(evalfrompkl.py line 138 additionally admits "3dpw-vibe"). -/
def evalPoseFor (dataset_name : String) : Bool :=
  dataset_name == "h36m-p1" || dataset_name == "h36m-p2" || dataset_name == "3dpw"
    || dataset_name == "mpi-inf-3dhp"

/-- How a call to `run_evaluation` ends: a returned value, or an uncaught
Python exception identified by its class name. -/
inductive EvalOutcome where
  | ret (r : EvalReturn)
  | exn (e : String)
deriving DecidableEq

/-- Outcome of `run_evaluation` as a function of the dataset name, the
`bVerbose` flag and the dataset's samples.

For the pose datasets (line 149) the final block at lines 404-427
returns the two scaled overall means; with no samples recorded,
`np.hstack([])` at line 404 raises ValueError.

For `lsp`, lines 151-154 enable mask/part evaluation, but
`renderer = PartRenderer()` (line 82) and `mask, parts = renderer(...)`
(line 268) are commented out, so the mask loop at lines 271-290 hits the
undefined name `mask` at line 278: any non-empty batch raises NameError
before `return -1` is ever reached.  With an empty dataset the batch
loop body never runs, and the final block at line 431 evaluates
`accuracy / pixel_count` with `pixel_count = 0` when `bVerbose`, raising
ZeroDivisionError; only with an empty dataset and `bVerbose = False`
does control reach `return -1` at line 439.

Any other dataset name leaves all evaluation flags off and also reaches
`return -1`. -/
def runEvaluationResult (dataset_name : String) (bVerbose : Bool)
    (ss : List Sample) : EvalOutcome :=
  if evalPoseFor dataset_name then
    if ss = [] then EvalOutcome.exn "ValueError"
    else
      EvalOutcome.ret (EvalReturn.poseMetrics (overallMean (quantMpjpe ss) * 1000)
        (overallMean (quantReconErr ss) * 1000))
  else if dataset_name = "lsp" then
    if ss = [] then
      if bVerbose then EvalOutcome.exn "ZeroDivisionError"
      else EvalOutcome.ret EvalReturn.minusOne
    else EvalOutcome.exn "NameError"
  else EvalOutcome.ret EvalReturn.minusOne

/-! ### Intermediate logging (eval_export.py lines 100-101, 316-322)

The arrays `mpjpe = np.zeros(len(dataset))` and `recon_err` are allocated
but never written during the loop (the assignments at lines 240 and 244
are commented out), yet the periodic progress print at lines 320-321
reports `1000 * mpjpe[:step * batch_size].mean()`. -/

/-- The `mpjpe` logging array: zeros of the dataset length, never updated. -/
def mpjpeLogArray (datasetLen : Nat) : List ℚ :=
  List.replicate datasetLen 0

/-- The value printed by the intermediate progress log at line 320. -/
def intermediateLoggedMPJPE (datasetLen step batchSize : Nat) : ℚ :=
  1000 * listMean ((mpjpeLogArray datasetLen).take (step * batchSize))

/-! ### Raw float values with NaN (for the finiteness-guard claim)

The per-sample errors are float computations; a singular Procrustes
alignment can yield NaN.  The recording loop (eval_export.py lines
246-254) has no finiteness guard, so we model the recorded value type
with an explicit NaN to trace what the aggregation does with it. -/

/-- A recorded per-sample value: a finite float (as a rational) or NaN. -/
inductive EVal where
  | val (q : ℚ)
  | nan
deriving DecidableEq

/-- IEEE-style addition: NaN propagates through sums. -/
def EVal.add : EVal → EVal → EVal
  | EVal.val a, EVal.val b => EVal.val (a + b)
  | _, _ => EVal.nan

/-- Sum of a list of recorded values, NaN-propagating. -/
def nanSum (l : List EVal) : EVal :=
  l.foldr EVal.add (EVal.val 0)

/-- Mean in the style of `np.mean` on floats: NaN when any entry is NaN. -/
def nanMean (l : List EVal) : EVal :=
  match nanSum l with
  | EVal.val s => EVal.val (s / (l.length : ℚ))
  | EVal.nan => EVal.nan

/-- The same recording loop as `quantMpjpe` on raw (possibly non-finite)
values: the source appends unconditionally. -/
def quantMpjpeRaw (ss : List (String × EVal)) : Buckets EVal :=
  ss.foldl (fun b s => record b (seqNameOf s.1) s.2) []

/-! ### Precomputed-prediction loading (evalfrompkl.py lines 307-339) -/

/-- Payload of one per-sample prediction pkl file (lines 326-329 read
`pred_pose_rotmat`, `pred_shape`, `pred_camera`; the contents are opaque
to the control flow modelled here). -/
structure PredData where
  pred_pose_rotmat : Int
  pred_shape : Int
  pred_camera : Int
deriving DecidableEq

/-- Python `name[:-4]`: drop the 4-character extension. -/
def dropLast4 (s : String) : String :=
  String.mk (s.data.take (s.data.length - 4))

/-- Line 314: the expected file name
`f'{seqName}_{imgNameOnly}_{sample_idx}.pkl'` with
`imgNameOnly = os.path.basename(name)[:-4]`. -/
def pklFileName (name : String) (sampleIdx : Nat) : String :=
  seqNameOf name ++ "_" ++ dropLast4 (basename name) ++ "_"
    ++ toString sampleIdx ++ ".pkl"

/-- Lines 307-333: scan the batch against the on-disk store; a missing
file sets the `missingPkl` flag and the sample is skipped (`continue`),
a present file's payload is appended to the prediction lists. -/
def scanBatchPkls (store : String → Option PredData) (pklDir : String)
    (batch : List (Nat × String)) : Bool × List PredData :=
  batch.foldl
    (fun acc sn =>
      match store (pklDir ++ "/" ++ pklFileName sn.2 sn.1) with
      | none => (true, acc.2)
      | some d => (acc.1, acc.2 ++ [d]))
    (false, [])

/-- Lines 336-339: after the scan, `if missingPkl:` the code executes
`assert False`, raising AssertionError and terminating the run; otherwise
the collected predictions are used. -/
def batchPredictions (store : String → Option PredData) (pklDir : String)
    (batch : List (Nat × String)) : Except String (List PredData) :=
  let r := scanBatchPkls store pklDir batch
  if r.1 then Except.error "AssertionError" else Except.ok r.2

/-! ### Metric calculator over joints (eval_export.py lines 238-243)

Line 239 computes, per sample over J joints of 3 coordinates,
`error = torch.sqrt(((pred_keypoints_3d - gt_keypoints_3d) ** 2).sum(dim=-1)).mean(dim=-1)`.
We embed one sample's joints as a list of (predicted, ground-truth)
pairs of 3-vectors over the reals. -/

/-- A 3D point (one joint position, in meters). -/
structure V3 where
  x : ℝ
  y : ℝ
  z : ℝ

noncomputable def V3.add (a b : V3) : V3 :=
  ⟨a.x + b.x, a.y + b.y, a.z + b.z⟩

noncomputable def V3.smul (c : ℝ) (v : V3) : V3 :=
  ⟨c * v.x, c * v.y, c * v.z⟩

/-- Squared Euclidean distance: `((pred - gt) ** 2).sum(dim=-1)`. -/
noncomputable def sqDist (p g : V3) : ℝ :=
  (p.x - g.x) ^ 2 + (p.y - g.y) ^ 2 + (p.z - g.z) ^ 2

/-- Euclidean distance between corresponding joints (the spec's phrase
for the per-joint term of the MPJPE formula). -/
noncomputable def euclidDist (p g : V3) : ℝ :=
  Real.sqrt (sqDist p g)

/-- Per-sample MPJPE from line 239: square root of the squared coordinate
sums, averaged over the joints. -/
noncomputable def mpjpe (joints : List (V3 × V3)) : ℝ :=
  (joints.map (fun pg => Real.sqrt (sqDist pg.1 pg.2))).sum / (joints.length : ℝ)

/-- A batch: `mpjpe` applied along the batch dimension, one scalar per
sample. -/
noncomputable def mpjpeBatch (batch : List (List (V3 × V3))) : List ℝ :=
  batch.map mpjpe

/-! ### Rigid similarity alignment (reconstruction error)

The source calls `reconstruction_error` from `fairmocap/utils/pose_utils.py`
(eval_export.py line 243), a file that is not part of this repository
snapshot.  Per the spec, it finds the rigid similarity transform
(rotation, uniform scale, translation) best aligning the prediction to
the ground truth in the least-squares sense (Procrustes analysis),
applies it, and computes MPJPE on the result. -/

/-- A 3x3 real matrix, row-major entries. -/
structure M3 where
  a00 : ℝ
  a01 : ℝ
  a02 : ℝ
  a10 : ℝ
  a11 : ℝ
  a12 : ℝ
  a20 : ℝ
  a21 : ℝ
  a22 : ℝ

noncomputable def M3.mulVec (R : M3) (v : V3) : V3 :=
  ⟨R.a00 * v.x + R.a01 * v.y + R.a02 * v.z,
   R.a10 * v.x + R.a11 * v.y + R.a12 * v.z,
   R.a20 * v.x + R.a21 * v.y + R.a22 * v.z⟩

/-- Columns are orthonormal: the componentwise statement of RᵀR = 1. -/
def M3.Orthonormal (R : M3) : Prop :=
  R.a00 ^ 2 + R.a10 ^ 2 + R.a20 ^ 2 = 1
  ∧ R.a01 ^ 2 + R.a11 ^ 2 + R.a21 ^ 2 = 1
  ∧ R.a02 ^ 2 + R.a12 ^ 2 + R.a22 ^ 2 = 1
  ∧ R.a00 * R.a01 + R.a10 * R.a11 + R.a20 * R.a21 = 0
  ∧ R.a00 * R.a02 + R.a10 * R.a12 + R.a20 * R.a22 = 0
  ∧ R.a01 * R.a02 + R.a11 * R.a12 + R.a21 * R.a22 = 0

noncomputable def M3.det (R : M3) : ℝ :=
  R.a00 * (R.a11 * R.a22 - R.a12 * R.a21)
    - R.a01 * (R.a10 * R.a22 - R.a12 * R.a20)
    + R.a02 * (R.a10 * R.a21 - R.a11 * R.a20)

/-- A rotation: orthonormal with determinant one. -/
def M3.IsRotation (R : M3) : Prop :=
  R.Orthonormal ∧ R.det = 1

/-- A similarity transform: uniform scale, rotation, translation. -/
structure SimT where
  scale : ℝ
  rot : M3
  trans : V3

noncomputable def SimT.apply (T : SimT) (v : V3) : V3 :=
  V3.add (V3.smul T.scale (T.rot.mulVec v)) T.trans

/-- A rigid similarity transform: the rotation part is a rotation. -/
def SimT.IsRigid (T : SimT) : Prop :=
  T.rot.IsRotation

/-- The least-squares objective of the Procrustes step: summed squared
distances between the transformed predictions and the ground truth. -/
noncomputable def alignCost (T : SimT) (joints : List (V3 × V3)) : ℝ :=
  (joints.map (fun pg => sqDist (T.apply pg.1) pg.2)).sum

/-- Modelled from the spec: `reconstruction_error` (in
`fairmocap/utils/pose_utils.py`, absent from this snapshot) uses the
rigid similarity transform that best aligns the prediction to ground
truth in the least-squares sense.  `T` is such an optimal transform when
it is rigid and minimizes the summed squared distances among all rigid
similarity transforms. -/
def IsOptimalAlign (T : SimT) (joints : List (V3 × V3)) : Prop :=
  T.IsRigid ∧ ∀ U : SimT, U.IsRigid → alignCost T joints ≤ alignCost U joints

/-- Modelled from the spec: the per-sample Reconstruction Error is the
MPJPE between the optimally aligned prediction and the ground truth. -/
noncomputable def reconstructionError (T : SimT) (joints : List (V3 × V3)) : ℝ :=
  mpjpe (joints.map (fun pg => (T.apply pg.1, pg.2)))

/-- Degenerate configuration per the spec: all the points lie on one
line (this includes the all-zero / all-equal cases). -/
def CollinearPts (l : List V3) : Prop :=
  ∃ a d : V3, ∀ p ∈ l, ∃ c : ℝ, p = V3.add a (V3.smul c d)

/-- The identity matrix. -/
noncomputable def idM3 : M3 :=
  ⟨1, 0, 0, 0, 1, 0, 0, 0, 1⟩

/-- The identity similarity transform. -/
noncomputable def idSimT : SimT :=
  ⟨1, idM3, ⟨0, 0, 0⟩⟩

/-- A concrete non-degenerate sample: six joints placed symmetrically on
the coordinate axes, the prediction a unit octahedron and the ground
truth an axis-scaled one. -/
noncomputable def joints6 : List (V3 × V3) :=
  [(⟨1, 0, 0⟩, ⟨9/10, 0, 0⟩), (⟨-1, 0, 0⟩, ⟨-(9/10), 0, 0⟩),
   (⟨0, 1, 0⟩, ⟨0, 1, 0⟩), (⟨0, -1, 0⟩, ⟨0, -1, 0⟩),
   (⟨0, 0, 1⟩, ⟨0, 0, 7/2⟩), (⟨0, 0, -1⟩, ⟨0, 0, -(7/2)⟩)]

/-- The optimal alignment for `joints6`: pure scaling by 9/5. -/
noncomputable def TstarC6 : SimT :=
  ⟨9/5, idM3, ⟨0, 0, 0⟩⟩

/-! ### Basic bucket lemmas -/

theorem bucketGet_record {α : Type} (bs : Buckets α) (k k' : String) (v : α) :
    bucketGet (record bs k v) k'
      = if k' = k then bucketGet bs k' ++ [v] else bucketGet bs k' := by
  induction bs with
  | nil =>
      by_cases h : k' = k
      · subst h
        simp [record, bucketGet]
      · simp [record, bucketGet, h, Ne.symm h]
  | cons hd tl ih =>
      obtain ⟨k'', vs⟩ := hd
      by_cases h1 : k'' = k
      · subst h1
        by_cases h2 : k' = k''
        · subst h2
          simp [record, bucketGet]
        · simp [record, bucketGet, h2, Ne.symm h2]
      · by_cases h2 : k' = k''
        · subst h2
          simp [record, bucketGet, h1, Ne.symm h1]
        · simp [record, bucketGet, h1, h2, Ne.symm h2, ih]

/-- The buckets produced by folding the recording step over a stream of
items, for an arbitrary key extraction `f` and value extraction `g`:
bucket `k` ends up holding exactly the values of the items whose key is
`k`, appended in stream order after whatever was already there. -/
theorem bucketGet_foldl_record {σ α : Type} (f : σ → String) (g : σ → α)
    (ss : List σ) (bs : Buckets α) (k : String) :
    bucketGet (ss.foldl (fun b s => record b (f s) (g s)) bs) k
      = bucketGet bs k ++ (ss.filter (fun s => f s = k)).map g := by
  induction ss generalizing bs with
  | nil => simp
  | cons s tl ih =>
      simp only [List.foldl_cons, ih, bucketGet_record, List.filter_cons]
      by_cases h : f s = k
      · simp [h, List.append_assoc]
      · simp [h, Ne.symm h]

theorem sum_allValues_record (bs : Buckets ℚ) (k : String) (v : ℚ) :
    (allValues (record bs k v)).sum = (allValues bs).sum + v := by
  induction bs with
  | nil => simp [record, allValues]
  | cons hd tl ih =>
      obtain ⟨k', vs⟩ := hd
      by_cases h : k' = k <;>
        simp [record, allValues, h, List.sum_append] at ih ⊢ <;> linarith

theorem length_allValues_record {α : Type} (bs : Buckets α) (k : String) (v : α) :
    (allValues (record bs k v)).length = (allValues bs).length + 1 := by
  induction bs with
  | nil => simp [record, allValues]
  | cons hd tl ih =>
      obtain ⟨k', vs⟩ := hd
      by_cases h : k' = k <;>
        simp [record, allValues, h] at ih ⊢ <;> omega

theorem sum_allValues_foldl_record {σ : Type} (f : σ → String) (g : σ → ℚ)
    (ss : List σ) (bs : Buckets ℚ) :
    (allValues (ss.foldl (fun b s => record b (f s) (g s)) bs)).sum
      = (allValues bs).sum + (ss.map g).sum := by
  induction ss generalizing bs with
  | nil => simp
  | cons s tl ih =>
      simp only [List.foldl_cons, ih, sum_allValues_record, List.map_cons,
        List.sum_cons]
      ring

theorem length_allValues_foldl_record {σ α : Type} (f : σ → String) (g : σ → α)
    (ss : List σ) (bs : Buckets α) :
    (allValues (ss.foldl (fun b s => record b (f s) (g s)) bs)).length
      = (allValues bs).length + ss.length := by
  induction ss generalizing bs with
  | nil => simp
  | cons s tl ih =>
      simp only [List.foldl_cons, ih, length_allValues_record, List.length_cons]
      omega

theorem keys_nil {α : Type} : keys ([] : Buckets α) = [] := rfl

theorem keys_cons {α : Type} (k : String) (vs : List α) (tl : Buckets α) :
    keys ((k, vs) :: tl) = k :: keys tl := rfl

theorem keys_record {α : Type} (bs : Buckets α) (k : String) (v : α) :
    keys (record bs k v) = if k ∈ keys bs then keys bs else keys bs ++ [k] := by
  induction bs with
  | nil => simp [record, keys_nil, keys_cons]
  | cons hd tl ih =>
      obtain ⟨k', vs⟩ := hd
      by_cases h : k' = k
      · subst h
        have hr : record ((k', vs) :: tl) k' v = (k', vs ++ [v]) :: tl := by
          simp [record]
        rw [hr, keys_cons, keys_cons]
        simp
      · have hr : record ((k', vs) :: tl) k v = (k', vs) :: record tl k v := by
          simp [record, h]
        rw [hr, keys_cons, keys_cons, ih]
        by_cases h2 : k ∈ keys tl
        · simp [h2, List.mem_cons, Ne.symm h]
        · simp [h2, List.mem_cons, Ne.symm h]

theorem keys_foldl_record {σ α : Type} (f : σ → String) (g : σ → α)
    (ss : List σ) (bs : Buckets α) :
    keys (ss.foldl (fun b s => record b (f s) (g s)) bs)
      = ss.foldl (fun acc s => if f s ∈ acc then acc else acc ++ [f s]) (keys bs) := by
  induction ss generalizing bs with
  | nil => simp
  | cons s tl ih =>
      simp only [List.foldl_cons, ih, keys_record]

/-- Folding over a flattened list of batches equals folding batch by
batch: the aggregation state cannot see batch boundaries. -/
theorem foldl_flatten {σ β : Type} (f : β → σ → β) (ll : List (List σ)) (b : β) :
    ll.flatten.foldl f b = ll.foldl (fun acc l => l.foldl f acc) b := by
  induction ll generalizing b with
  | nil => simp
  | cons l ls ih => simp [List.foldl_append, ih]

/-- The overall mean over all buckets equals the plain mean of the
recorded value stream, whatever key function distributed the values. -/
theorem overallMean_foldl_record {σ : Type} (f : σ → String) (g : σ → ℚ)
    (ss : List σ) :
    overallMean (ss.foldl (fun b s => record b (f s) (g s)) []) = listMean (ss.map g) := by
  unfold overallMean listMean
  rw [sum_allValues_foldl_record, length_allValues_foldl_record]
  simp [allValues]

theorem overallMean_quantMpjpe (ss : List Sample) :
    overallMean (quantMpjpe ss) = listMean (ss.map Sample.error) := by
  unfold quantMpjpe
  exact overallMean_foldl_record (fun s => seqNameOf s.imgname) (fun s => s.error) ss

theorem overallMean_quantReconErr (ss : List Sample) :
    overallMean (quantReconErr ss) = listMean (ss.map Sample.r_error) := by
  unfold quantReconErr
  exact overallMean_foldl_record (fun s => seqNameOf s.imgname) (fun s => s.r_error) ss

theorem bucketGet_quantMpjpe (ss : List Sample) (k : String) :
    bucketGet (quantMpjpe ss) k
      = (ss.filter (fun s => seqNameOf s.imgname = k)).map Sample.error := by
  unfold quantMpjpe
  simpa using
    bucketGet_foldl_record (fun s => seqNameOf s.imgname) (fun s => s.error) ss [] k

theorem bucketGet_quantReconErr (ss : List Sample) (k : String) :
    bucketGet (quantReconErr ss) k
      = (ss.filter (fun s => seqNameOf s.imgname = k)).map Sample.r_error := by
  unfold quantReconErr
  simpa using
    bucketGet_foldl_record (fun s => seqNameOf s.imgname) (fun s => s.r_error) ss [] k

/-! ### Claim theorems (aggregation layer) -/

/-- C4: every processed sample contributes exactly one scalar error value
per metric (one MPJPE value and one reconstruction-error value) to
exactly one sequence bucket, the bucket keyed by its sequence identifier:
each bucket holds exactly the values of the samples whose sequence
identifier is its key, and the total bucket contents per metric have one
entry per sample. -/
theorem sample_contributes_once (ss : List Sample) (k : String) :
    bucketGet (quantMpjpe ss) k
        = (ss.filter (fun s => seqNameOf s.imgname = k)).map Sample.error
    ∧ bucketGet (quantReconErr ss) k
        = (ss.filter (fun s => seqNameOf s.imgname = k)).map Sample.r_error
    ∧ (allValues (quantMpjpe ss)).length = ss.length
    ∧ (allValues (quantReconErr ss)).length = ss.length := by
  refine ⟨bucketGet_quantMpjpe ss k, bucketGet_quantReconErr ss k, ?_, ?_⟩
  · unfold quantMpjpe
    simpa [allValues] using
      length_allValues_foldl_record (fun s => seqNameOf s.imgname) (fun s => s.error) ss []
  · unfold quantReconErr
    simpa [allValues] using
      length_allValues_foldl_record (fun s => seqNameOf s.imgname) (fun s => s.r_error) ss []

/-- C5: the reported overall mean per metric is the mean over the
concatenation of all per-sequence buckets with every sample weighted
equally (not a mean of per-sequence means), for an arbitrary key
function partitioning samples into sequences; and the bucket state after
recording a stream of samples is the same however that stream was split
into batches. -/
theorem overall_mean_concat (key : Sample → String) (val : Sample → ℚ)
    (ss : List Sample) (batches : List (List Sample)) :
    overallMean (ss.foldl (fun b s => record b (key s) (val s)) [])
        = listMean (ss.map val)
    ∧ batches.flatten.foldl (fun b s => record b (key s) (val s)) []
        = batches.foldl (fun acc batch => batch.foldl (fun b s => record b (key s) (val s)) acc) []
    ∧ overallMean (quantMpjpe ss) = listMean (ss.map Sample.error)
    ∧ overallMean (quantReconErr ss) = listMean (ss.map Sample.r_error) :=
  ⟨overallMean_foldl_record key val ss,
   foldl_flatten (fun b s => record b (key s) (val s)) batches [],
   overallMean_quantMpjpe ss,
   overallMean_quantReconErr ss⟩

/-- C8: the sequence identifier under which a sample's two errors are
recorded is exactly the base name of the parent directory of the
sample's source image path: each recorded sample's errors land in the
bucket keyed `basename (dirname imgname)`. -/
theorem seq_bucket_parent_dir (ss : List Sample) (s : Sample) (h : s ∈ ss) :
    seqNameOf s.imgname = basename (dirname s.imgname)
    ∧ s.error ∈ bucketGet (quantMpjpe ss) (basename (dirname s.imgname))
    ∧ s.r_error ∈ bucketGet (quantReconErr ss) (basename (dirname s.imgname)) := by
  refine ⟨rfl, ?_, ?_⟩
  · rw [show basename (dirname s.imgname) = seqNameOf s.imgname from rfl,
      bucketGet_quantMpjpe]
    exact List.mem_map_of_mem Sample.error (List.mem_filter.mpr ⟨h, by simp⟩)
  · rw [show basename (dirname s.imgname) = seqNameOf s.imgname from rfl,
      bucketGet_quantReconErr]
    exact List.mem_map_of_mem Sample.r_error (List.mem_filter.mpr ⟨h, by simp⟩)

/-- C8 witness: concrete instance of `seq_bucket_parent_dir`. -/
theorem seq_bucket_parent_dir_witness :
    (⟨"v/seqA/img.jpg", 1, 2⟩ : Sample) ∈ ([⟨"v/seqA/img.jpg", 1, 2⟩] : List Sample)
    ∧ (1 : ℚ) ∈ bucketGet (quantMpjpe [⟨"v/seqA/img.jpg", 1, 2⟩])
        (basename (dirname "v/seqA/img.jpg"))
    ∧ (2 : ℚ) ∈ bucketGet (quantReconErr [⟨"v/seqA/img.jpg", 1, 2⟩])
        (basename (dirname "v/seqA/img.jpg")) := by
  have h := seq_bucket_parent_dir [⟨"v/seqA/img.jpg", 1, 2⟩] ⟨"v/seqA/img.jpg", 1, 2⟩
    (List.mem_singleton.mpr rfl)
  exact ⟨List.mem_singleton.mpr rfl, h.2.1, h.2.2⟩

/-- C9: the final text report has one line per metric, carrying the
overall average in millimeters followed by the per-sequence means in
millimeters, with sequences listed in first-appearance order of the
sequence identifiers during the run. -/
theorem final_report_structure (ss : List Sample) :
    (finalReport (quantMpjpe ss) (quantReconErr ss)).metricLines
        = [metricLine "MPJPE" (quantMpjpe ss), metricLine "Recon Error" (quantReconErr ss)]
    ∧ (metricLine "MPJPE" (quantMpjpe ss)).avg_mm = overallMean (quantMpjpe ss) * 1000
    ∧ (metricLine "Recon Error" (quantReconErr ss)).avg_mm
        = overallMean (quantReconErr ss) * 1000
    ∧ (metricLine "MPJPE" (quantMpjpe ss)).perSeq_mm.map Prod.fst
        = firstAppearance (ss.map (fun s => seqNameOf s.imgname))
    ∧ (metricLine "Recon Error" (quantReconErr ss)).perSeq_mm.map Prod.fst
        = firstAppearance (ss.map (fun s => seqNameOf s.imgname)) := by
  refine ⟨rfl, rfl, rfl, ?_, ?_⟩
  · have h1 : (metricLine "MPJPE" (quantMpjpe ss)).perSeq_mm.map Prod.fst
        = keys (quantMpjpe ss) := by
      simp [metricLine, keys]
    rw [h1]
    unfold quantMpjpe
    rw [keys_foldl_record, firstAppearance, List.foldl_map]
    rfl
  · have h1 : (metricLine "Recon Error" (quantReconErr ss)).perSeq_mm.map Prod.fst
        = keys (quantReconErr ss) := by
      simp [metricLine, keys]
    rw [h1]
    unfold quantReconErr
    rw [keys_foldl_record, firstAppearance, List.foldl_map]
    rfl

/-- C10 counterexample: on dataset `lsp` with a non-empty dataset the run
does not return -1: the mask-evaluation loop dereferences the undefined
name `mask` (the renderer construction and call at eval_export.py lines
82 and 268 are commented out) and raises NameError in the first batch. -/
theorem lsp_minus_one_cex :
    runEvaluationResult "lsp" true [⟨"a/s/1", 0, 0⟩] = EvalOutcome.exn "NameError"
    ∧ runEvaluationResult "lsp" true [⟨"a/s/1", 0, 0⟩]
        ≠ EvalOutcome.ret EvalReturn.minusOne := by
  constructor
  · rfl
  · intro h
    rw [show runEvaluationResult "lsp" true [⟨"a/s/1", 0, 0⟩]
        = EvalOutcome.exn "NameError" from rfl] at h
    exact EvalOutcome.noConfusion h

/-- C10 amended: with pose evaluation enabled and at least one recorded
sample, run_evaluation returns the pair (overall mean MPJPE times 1000,
overall mean reconstruction error times 1000) over the concatenation of
all sequence buckets; for dataset `lsp` any non-empty run raises
NameError in the mask-evaluation loop (undefined `mask`), an empty run
with bVerbose raises ZeroDivisionError at the accuracy print, and -1 is
returned only for an empty dataset with bVerbose disabled. -/
theorem run_evaluation_outcome (dataset_name : String) (bVerbose : Bool)
    (ss : List Sample) (hp : evalPoseFor dataset_name = true) (hne : ss ≠ []) :
    runEvaluationResult dataset_name bVerbose ss
        = EvalOutcome.ret (EvalReturn.poseMetrics (listMean (ss.map Sample.error) * 1000)
            (listMean (ss.map Sample.r_error) * 1000))
    ∧ runEvaluationResult "lsp" bVerbose ss = EvalOutcome.exn "NameError"
    ∧ runEvaluationResult "lsp" true [] = EvalOutcome.exn "ZeroDivisionError"
    ∧ runEvaluationResult "lsp" false [] = EvalOutcome.ret EvalReturn.minusOne := by
  refine ⟨?_, ?_, rfl, rfl⟩
  · rw [runEvaluationResult, if_pos hp, if_neg hne, overallMean_quantMpjpe,
      overallMean_quantReconErr]
  · have hlsp : evalPoseFor "lsp" = false := by decide
    rw [runEvaluationResult, hlsp]
    simp [hne]

/-- C10 witness: concrete instance of `run_evaluation_outcome`. -/
theorem run_evaluation_outcome_witness :
    evalPoseFor "3dpw" = true
    ∧ ([⟨"a/s/1", 1/10, 3/10⟩] : List Sample) ≠ []
    ∧ runEvaluationResult "3dpw" true [⟨"a/s/1", 1/10, 3/10⟩]
        = EvalOutcome.ret (EvalReturn.poseMetrics (listMean [(1 : ℚ)/10] * 1000)
            (listMean [(3 : ℚ)/10] * 1000))
    ∧ runEvaluationResult "lsp" true [⟨"a/s/1", 1/10, 3/10⟩] = EvalOutcome.exn "NameError"
    ∧ runEvaluationResult "lsp" false [] = EvalOutcome.ret EvalReturn.minusOne := by
  have h := run_evaluation_outcome "3dpw" true [⟨"a/s/1", 1/10, 3/10⟩] (by decide) (by simp)
  exact ⟨by decide, by simp, by simpa using h.1, h.2.1, h.2.2.2⟩

/-- C1 (code bug): the intermediate progress print reports the mean of a
prefix of the never-populated zero array, not the running overall mean of
the recorded errors.  With a dataset of two samples of MPJPE 0.1 m each
(running overall mean 100 mm), after the first batch of two the log
prints 0. -/
theorem intermediate_log_stale :
    intermediateLoggedMPJPE 2 1 2 = 0
    ∧ overallMean (quantMpjpe [⟨"a/s/1", 1/10, 1/10⟩, ⟨"a/s/2", 1/10, 1/10⟩]) * 1000 = 100
    ∧ intermediateLoggedMPJPE 2 1 2
        ≠ overallMean (quantMpjpe [⟨"a/s/1", 1/10, 1/10⟩, ⟨"a/s/2", 1/10, 1/10⟩]) * 1000 := by
  have hlog : intermediateLoggedMPJPE 2 1 2 = 0 := by
    norm_num [intermediateLoggedMPJPE, mpjpeLogArray, listMean, List.replicate]
  have h1 : seqNameOf "a/s/1" = "s" := by decide
  have h2 : seqNameOf "a/s/2" = "s" := by decide
  have hmean : overallMean (quantMpjpe [⟨"a/s/1", 1/10, 1/10⟩, ⟨"a/s/2", 1/10, 1/10⟩]) * 1000
      = 100 := by
    simp [quantMpjpe, record, h1, h2, overallMean, allValues, listMean]
    norm_num
  refine ⟨hlog, hmean, ?_⟩
  rw [hlog, hmean]
  norm_num

/-- C3 (code bug): the recording loop has no finiteness guard, so a NaN
per-sample value is appended into its sequence bucket like any other
value, and the overall mean over the concatenated buckets becomes NaN:
the degenerate sample is silently averaged in rather than excluded. -/
theorem nan_recorded_pollutes_mean :
    allValues (quantMpjpeRaw [("a/s/1", EVal.val (1/10)), ("a/s/2", EVal.nan)])
        = [EVal.val (1/10), EVal.nan]
    ∧ nanMean (allValues (quantMpjpeRaw [("a/s/1", EVal.val (1/10)), ("a/s/2", EVal.nan)]))
        = EVal.nan
    ∧ bucketGet (record ([] : Buckets EVal) "s" EVal.nan) "s" = [EVal.nan] := by
  have h1 : seqNameOf "a/s/1" = "s" := by decide
  have h2 : seqNameOf "a/s/2" = "s" := by decide
  have hv : allValues (quantMpjpeRaw [("a/s/1", EVal.val (1/10)), ("a/s/2", EVal.nan)])
      = [EVal.val (1/10), EVal.nan] := by
    simp [quantMpjpeRaw, record, h1, h2, allValues]
  refine ⟨hv, ?_, ?_⟩
  · rw [hv]
    simp [nanMean, nanSum, EVal.add]
  · simp [record, bucketGet]

/-- C2 (code bug): when a precomputed per-sample prediction file is
missing from the store, the batch scan flags it and skips the sample,
but the subsequent `assert False` turns the whole run into an
AssertionError: the run terminates instead of counting the sample as
skipped and reporting a coverage gap. -/
theorem missing_pkl_aborts :
    scanBatchPkls
        (fun p => if p = "pkl/s_1_0.pkl" then some ⟨1, 2, 3⟩ else none)
        "pkl" [(0, "a/s/1.jpg"), (1, "a/s/2.jpg")]
      = (true, [⟨1, 2, 3⟩])
    ∧ batchPredictions
        (fun p => if p = "pkl/s_1_0.pkl" then some ⟨1, 2, 3⟩ else none)
        "pkl" [(0, "a/s/1.jpg"), (1, "a/s/2.jpg")]
      = Except.error "AssertionError"
    ∧ batchPredictions
        (fun p => if p = "pkl/s_1_0.pkl" then some ⟨1, 2, 3⟩ else none)
        "pkl" [(0, "a/s/1.jpg")]
      = Except.ok [⟨1, 2, 3⟩] := by
  refine ⟨by decide, by rfl, by rfl⟩

/-! ### Metric layer lemmas and claims -/

theorem sqrt_val (a b : ℝ) (ha : 0 ≤ a) (h : a ^ 2 = b) : Real.sqrt b = a := by
  rw [← h]
  exact Real.sqrt_sq ha

/-- C7: the computed per-sample MPJPE is the mean over joints of the
Euclidean distance between corresponding joints (sqrt of the sum over
the 3 coordinates of the squared differences), one scalar per sample
along the batch; when the prediction equals the ground truth exactly it
is 0. -/
theorem mpjpe_formula (joints : List (V3 × V3)) (batch : List (List (V3 × V3))) :
    mpjpe joints = (joints.map (fun pg => euclidDist pg.1 pg.2)).sum / (joints.length : ℝ)
    ∧ (mpjpeBatch batch).length = batch.length
    ∧ ((∀ pg ∈ joints, pg.1 = pg.2) → mpjpe joints = 0) := by
  refine ⟨rfl, by simp [mpjpeBatch], ?_⟩
  intro h
  unfold mpjpe
  have hz : (joints.map (fun pg => Real.sqrt (sqDist pg.1 pg.2))).sum = 0 := by
    apply List.sum_eq_zero
    intro v hv
    obtain ⟨pg, hpg, rfl⟩ := List.mem_map.mp hv
    rw [h pg hpg]
    simp [sqDist]
  rw [hz]
  simp

/-- C7 witness: a one-joint sample with prediction equal to ground truth
has MPJPE 0. -/
theorem mpjpe_formula_witness :
    mpjpe [((⟨1, 2, 3⟩ : V3), (⟨1, 2, 3⟩ : V3))] = 0 := by
  apply (mpjpe_formula [((⟨1, 2, 3⟩ : V3), (⟨1, 2, 3⟩ : V3))] []).2.2
  intro pg hm
  rw [List.mem_singleton] at hm
  subst hm
  rfl

theorem idM3_rotation : idM3.IsRotation := by
  constructor
  · refine ⟨?_, ?_, ?_, ?_, ?_, ?_⟩ <;> norm_num [idM3]
  · norm_num [idM3, M3.det]

theorem apply_idSimT (v : V3) : idSimT.apply v = v := by
  cases v
  simp [idSimT, SimT.apply, idM3, M3.mulVec, V3.add, V3.smul]

theorem alignCost_idSimT (joints : List (V3 × V3)) :
    alignCost idSimT joints = (joints.map (fun pg => sqDist pg.1 pg.2)).sum := by
  unfold alignCost
  induction joints with
  | nil => simp
  | cons pg tl ih => simp [ih, apply_idSimT]

theorem alignCost_TstarC6 : alignCost TstarC6 joints6 = 217 / 25 := by
  simp only [alignCost, joints6, TstarC6, SimT.apply, idM3, M3.mulVec, V3.add, V3.smul,
    sqDist, List.map_cons, List.map_nil, List.sum_cons, List.sum_nil]
  norm_num

set_option maxHeartbeats 2000000 in
/-- Optimality of the pure scaling by 9/5 on the octahedron sample: for
any rigid similarity transform, the least-squares objective is at least
217/25, with equality at `TstarC6`. -/
theorem TstarC6_optimal : IsOptimalAlign TstarC6 joints6 := by
  constructor
  · exact idM3_rotation
  · intro U hU
    obtain ⟨c0, c1, c2, d01, d02, d12⟩ := hU.1
    have key : alignCost U joints6
        = 6 * U.scale ^ 2
          - 4 * U.scale * ((9/10) * U.rot.a00 + U.rot.a11 + (7/2) * U.rot.a22)
          + 703 / 25
          + 6 * (U.trans.x ^ 2 + U.trans.y ^ 2 + U.trans.z ^ 2) := by
      simp only [alignCost, joints6, SimT.apply, M3.mulVec, V3.add, V3.smul, sqDist,
        List.map_cons, List.map_nil, List.sum_cons, List.sum_nil]
      linear_combination (2 * U.scale ^ 2) * c0 + (2 * U.scale ^ 2) * c1
        + (2 * U.scale ^ 2) * c2
    rw [alignCost_TstarC6, key]
    have b00u : U.rot.a00 ≤ 1 := by
      nlinarith [sq_nonneg (U.rot.a00 - 1), sq_nonneg U.rot.a10, sq_nonneg U.rot.a20]
    have b00l : -1 ≤ U.rot.a00 := by
      nlinarith [sq_nonneg (U.rot.a00 + 1), sq_nonneg U.rot.a10, sq_nonneg U.rot.a20]
    have b11u : U.rot.a11 ≤ 1 := by
      nlinarith [sq_nonneg (U.rot.a11 - 1), sq_nonneg U.rot.a01, sq_nonneg U.rot.a21]
    have b11l : -1 ≤ U.rot.a11 := by
      nlinarith [sq_nonneg (U.rot.a11 + 1), sq_nonneg U.rot.a01, sq_nonneg U.rot.a21]
    have b22u : U.rot.a22 ≤ 1 := by
      nlinarith [sq_nonneg (U.rot.a22 - 1), sq_nonneg U.rot.a02, sq_nonneg U.rot.a12]
    have b22l : -1 ≤ U.rot.a22 := by
      nlinarith [sq_nonneg (U.rot.a22 + 1), sq_nonneg U.rot.a02, sq_nonneg U.rot.a12]
    have hD1 : (9/10) * U.rot.a00 + U.rot.a11 + (7/2) * U.rot.a22 ≤ 27/5 := by linarith
    have hD2 : -(27/5) ≤ (9/10) * U.rot.a00 + U.rot.a11 + (7/2) * U.rot.a22 := by linarith
    nlinarith [sq_nonneg (6 * U.scale
        - 2 * ((9/10) * U.rot.a00 + U.rot.a11 + (7/2) * U.rot.a22)),
      mul_nonneg
        (by linarith : (0:ℝ) ≤ 27/5 - ((9/10) * U.rot.a00 + U.rot.a11 + (7/2) * U.rot.a22))
        (by linarith : (0:ℝ) ≤ 27/5 + ((9/10) * U.rot.a00 + U.rot.a11 + (7/2) * U.rot.a22)),
      sq_nonneg U.trans.x, sq_nonneg U.trans.y, sq_nonneg U.trans.z]

theorem mpjpe_joints6 : mpjpe joints6 = 13 / 15 := by
  have e1 : Real.sqrt (sqDist ⟨1, 0, 0⟩ ⟨9/10, 0, 0⟩) = 1/10 := by
    apply sqrt_val _ _ (by norm_num)
    simp [sqDist]
    norm_num
  have e2 : Real.sqrt (sqDist ⟨-1, 0, 0⟩ ⟨-(9/10), 0, 0⟩) = 1/10 := by
    apply sqrt_val _ _ (by norm_num)
    simp [sqDist]
    norm_num
  have e3 : Real.sqrt (sqDist ⟨0, 1, 0⟩ ⟨0, 1, 0⟩) = 0 := by
    simp [sqDist]
  have e4 : Real.sqrt (sqDist ⟨0, -1, 0⟩ ⟨0, -1, 0⟩) = 0 := by
    simp [sqDist]
  have e5 : Real.sqrt (sqDist ⟨0, 0, 1⟩ ⟨0, 0, 7/2⟩) = 5/2 := by
    apply sqrt_val _ _ (by norm_num)
    simp [sqDist]
    norm_num
  have e6 : Real.sqrt (sqDist ⟨0, 0, -1⟩ ⟨0, 0, -(7/2)⟩) = 5/2 := by
    apply sqrt_val _ _ (by norm_num)
    simp [sqDist]
    norm_num
  simp only [mpjpe, joints6, List.map_cons, List.map_nil, List.sum_cons, List.sum_nil,
    List.length_cons, List.length_nil, e1, e2, e3, e4, e5, e6]
  norm_num

theorem recon_joints6 : reconstructionError TstarC6 joints6 = 17 / 15 := by
  have r1 : Real.sqrt (sqDist (SimT.apply TstarC6 ⟨1, 0, 0⟩) ⟨9/10, 0, 0⟩) = 9/10 := by
    apply sqrt_val _ _ (by norm_num)
    simp [TstarC6, SimT.apply, idM3, M3.mulVec, V3.add, V3.smul, sqDist]
    norm_num
  have r2 : Real.sqrt (sqDist (SimT.apply TstarC6 ⟨-1, 0, 0⟩) ⟨-(9/10), 0, 0⟩) = 9/10 := by
    apply sqrt_val _ _ (by norm_num)
    simp [TstarC6, SimT.apply, idM3, M3.mulVec, V3.add, V3.smul, sqDist]
    norm_num
  have r3 : Real.sqrt (sqDist (SimT.apply TstarC6 ⟨0, 1, 0⟩) ⟨0, 1, 0⟩) = 4/5 := by
    apply sqrt_val _ _ (by norm_num)
    simp [TstarC6, SimT.apply, idM3, M3.mulVec, V3.add, V3.smul, sqDist]
    norm_num
  have r4 : Real.sqrt (sqDist (SimT.apply TstarC6 ⟨0, -1, 0⟩) ⟨0, -1, 0⟩) = 4/5 := by
    apply sqrt_val _ _ (by norm_num)
    simp [TstarC6, SimT.apply, idM3, M3.mulVec, V3.add, V3.smul, sqDist]
    norm_num
  have r5 : Real.sqrt (sqDist (SimT.apply TstarC6 ⟨0, 0, 1⟩) ⟨0, 0, 7/2⟩) = 17/10 := by
    apply sqrt_val _ _ (by norm_num)
    simp [TstarC6, SimT.apply, idM3, M3.mulVec, V3.add, V3.smul, sqDist]
    norm_num
  have r6 : Real.sqrt (sqDist (SimT.apply TstarC6 ⟨0, 0, -1⟩) ⟨0, 0, -(7/2)⟩) = 17/10 := by
    apply sqrt_val _ _ (by norm_num)
    simp [TstarC6, SimT.apply, idM3, M3.mulVec, V3.add, V3.smul, sqDist]
    norm_num
  simp only [reconstructionError, mpjpe, joints6, List.map_cons, List.map_nil,
    List.sum_cons, List.sum_nil, List.length_cons, List.length_nil, r1, r2, r3, r4, r5, r6]
  norm_num

theorem preds_not_collinear : ¬ CollinearPts (joints6.map Prod.fst) := by
  intro hcol
  obtain ⟨a, d, h⟩ := hcol
  have hm : joints6.map Prod.fst
      = [⟨1, 0, 0⟩, ⟨-1, 0, 0⟩, ⟨0, 1, 0⟩, ⟨0, -1, 0⟩, ⟨0, 0, 1⟩, ⟨0, 0, -1⟩] := by
    simp [joints6]
  rw [hm] at h
  obtain ⟨c1, hc1⟩ := h ⟨1, 0, 0⟩ (by simp)
  obtain ⟨c2, hc2⟩ := h ⟨-1, 0, 0⟩ (by simp)
  obtain ⟨c3, hc3⟩ := h ⟨0, 1, 0⟩ (by simp)
  obtain ⟨c4, hc4⟩ := h ⟨0, -1, 0⟩ (by simp)
  have e1x : a.x + c1 * d.x = 1 := by
    have := congrArg V3.x hc1
    simp [V3.add, V3.smul] at this
    linarith
  have e2x : a.x + c2 * d.x = -1 := by
    have := congrArg V3.x hc2
    simp [V3.add, V3.smul] at this
    linarith
  have e1y : a.y + c1 * d.y = 0 := by
    have := congrArg V3.y hc1
    simp [V3.add, V3.smul] at this
    linarith
  have e2y : a.y + c2 * d.y = 0 := by
    have := congrArg V3.y hc2
    simp [V3.add, V3.smul] at this
    linarith
  have e3y : a.y + c3 * d.y = 1 := by
    have := congrArg V3.y hc3
    simp [V3.add, V3.smul] at this
    linarith
  have e4y : a.y + c4 * d.y = -1 := by
    have := congrArg V3.y hc4
    simp [V3.add, V3.smul] at this
    linarith
  have e3x : a.x + c3 * d.x = 0 := by
    have := congrArg V3.x hc3
    simp [V3.add, V3.smul] at this
    linarith
  have e4x : a.x + c4 * d.x = 0 := by
    have := congrArg V3.x hc4
    simp [V3.add, V3.smul] at this
    linarith
  have hA : c1 * d.x - c2 * d.x = 2 := by linarith
  have hB : c1 * d.y - c2 * d.y = 0 := by linarith
  have hC : c3 * d.y - c4 * d.y = 2 := by linarith
  have hD : c3 * d.x - c4 * d.x = 0 := by linarith
  have key : (c1 * d.x - c2 * d.x) * (c3 * d.y - c4 * d.y)
      = (c1 * d.y - c2 * d.y) * (c3 * d.x - c4 * d.x) := by ring
  rw [hA, hB, hC, hD] at key
  norm_num at key

theorem gts_not_collinear : ¬ CollinearPts (joints6.map Prod.snd) := by
  intro hcol
  obtain ⟨a, d, h⟩ := hcol
  have hm : joints6.map Prod.snd
      = [⟨9/10, 0, 0⟩, ⟨-(9/10), 0, 0⟩, ⟨0, 1, 0⟩, ⟨0, -1, 0⟩, ⟨0, 0, 7/2⟩, ⟨0, 0, -(7/2)⟩] := by
    simp [joints6]
  rw [hm] at h
  obtain ⟨c1, hc1⟩ := h ⟨9/10, 0, 0⟩ (by simp)
  obtain ⟨c2, hc2⟩ := h ⟨-(9/10), 0, 0⟩ (by simp)
  obtain ⟨c3, hc3⟩ := h ⟨0, 1, 0⟩ (by simp)
  obtain ⟨c4, hc4⟩ := h ⟨0, -1, 0⟩ (by simp)
  have e1x : a.x + c1 * d.x = 9/10 := by
    have := congrArg V3.x hc1
    simp [V3.add, V3.smul] at this
    linarith
  have e2x : a.x + c2 * d.x = -(9/10) := by
    have := congrArg V3.x hc2
    simp [V3.add, V3.smul] at this
    linarith
  have e1y : a.y + c1 * d.y = 0 := by
    have := congrArg V3.y hc1
    simp [V3.add, V3.smul] at this
    linarith
  have e2y : a.y + c2 * d.y = 0 := by
    have := congrArg V3.y hc2
    simp [V3.add, V3.smul] at this
    linarith
  have e3y : a.y + c3 * d.y = 1 := by
    have := congrArg V3.y hc3
    simp [V3.add, V3.smul] at this
    linarith
  have e4y : a.y + c4 * d.y = -1 := by
    have := congrArg V3.y hc4
    simp [V3.add, V3.smul] at this
    linarith
  have e3x : a.x + c3 * d.x = 0 := by
    have := congrArg V3.x hc3
    simp [V3.add, V3.smul] at this
    linarith
  have e4x : a.x + c4 * d.x = 0 := by
    have := congrArg V3.x hc4
    simp [V3.add, V3.smul] at this
    linarith
  have hA : c1 * d.x - c2 * d.x = 9/5 := by linarith
  have hB : c1 * d.y - c2 * d.y = 0 := by linarith
  have hC : c3 * d.y - c4 * d.y = 2 := by linarith
  have hD : c3 * d.x - c4 * d.x = 0 := by linarith
  have key : (c1 * d.x - c2 * d.x) * (c3 * d.y - c4 * d.y)
      = (c1 * d.y - c2 * d.y) * (c3 * d.x - c4 * d.x) := by ring
  rw [hA, hB, hC, hD] at key
  norm_num at key

/-- C6 counterexample: a non-degenerate configuration (neither point set
collinear) whose least-squares-optimal rigid similarity alignment
strictly increases the per-sample mean joint distance: the Reconstruction
Error (17/15 m) exceeds the MPJPE (13/15 m). -/
theorem recon_gt_mpjpe_cex :
    IsOptimalAlign TstarC6 joints6
    ∧ ¬ CollinearPts (joints6.map Prod.fst)
    ∧ ¬ CollinearPts (joints6.map Prod.snd)
    ∧ mpjpe joints6 < reconstructionError TstarC6 joints6 := by
  refine ⟨TstarC6_optimal, preds_not_collinear, gts_not_collinear, ?_⟩
  rw [mpjpe_joints6, recon_joints6]
  norm_num

/-- C6 amended: an optimal rigid similarity alignment never increases the
summed squared joint distances — the least-squares objective the
Procrustes step actually minimizes; the unsquared per-joint mean
(Reconstruction Error vs MPJPE) can strictly increase even on
non-degenerate input. -/
theorem aligned_cost_le_unaligned (joints : List (V3 × V3)) (T : SimT)
    (h : IsOptimalAlign T joints) :
    alignCost T joints ≤ (joints.map (fun pg => sqDist pg.1 pg.2)).sum := by
  have hid : SimT.IsRigid idSimT := idM3_rotation
  have := h.2 idSimT hid
  rwa [alignCost_idSimT] at this

/-- C6 witness: the amended inequality at the concrete configuration,
with the optimality hypothesis discharged there. -/
theorem aligned_cost_le_unaligned_witness :
    IsOptimalAlign TstarC6 joints6
    ∧ alignCost TstarC6 joints6 ≤ (joints6.map (fun pg => sqDist pg.1 pg.2)).sum :=
  ⟨TstarC6_optimal, aligned_cost_le_unaligned joints6 TstarC6 TstarC6_optimal⟩

end EFT

